import Mathlib

/-!
Shallow embedding of `src/InMemoryCache.py`: an in-memory key-value cache
with per-entry TTL expiration and LRU capacity eviction, plus the HTTP
binding layer (`put_cache_item`, `get_cache_item`).

Modelling conventions:
* Python values reaching the cache (and JSON values in request bodies) are
  modelled by `PyVal`: `PyVal.none` is Python `None` / JSON `null`; integers
  and strings cover the payloads the claims exercise.
* `time.time()` is modelled by an explicit `now : Int` argument threaded
  through every operation (whole-second granularity, as the spec's non-goals
  allow).
* The `OrderedDict` is modelled as `List (String × Entry)` in insertion /
  recency order: the head is the least-recently-used entry (the one
  `popitem(last=False)` removes), the last element the most recent.
  Python's `del d[key]` / `move_to_end` are modelled with a filter; on the
  states the Python program can reach, keys are unique, so removing all
  occurrences coincides with removing the one binding.
* The `threading.RLock` guard is not modelled: every operation is a pure
  state transformer, which is exactly the atomicity the lock provides.
-/

/-- A Python/JSON value as stored in and served by the cache. -/
inductive PyVal where
  | none
  | int (n : Int)
  | str (s : String)
deriving DecidableEq

/-- The per-key record `put` stores in `self._cache`:
`{'value': ..., 'ttl': ..., 'expires_at': ..., 'created_at': ...}`. -/
structure Entry where
  value : PyVal
  ttl : Option Int
  expires_at : Option Int
  created_at : Int
deriving DecidableEq

/-- The `InMemoryCache` object: `max_size`, `default_ttl` and the ordered
mapping `self._cache`. -/
structure InMemoryCache where
  max_size : Nat
  default_ttl : Int
  cache : List (String × Entry)
deriving DecidableEq

namespace InMemoryCache

/-- `_is_expired`: `False` when `item['ttl'] is None`, else
`time.time() > item['expires_at']`.  (For entries built by `put`,
`ttl` is set exactly when `expires_at` is; the inner `none` branch is
unreachable on such entries.) -/
def is_expired (now : Int) (item : Entry) : Bool :=
  match item.ttl with
  | Option.none => false
  | Option.some _ =>
    match item.expires_at with
    | Option.none => false
    | Option.some e => decide (now > e)

/-- `_evict_expired`: remove every item with `item['ttl'] is not None and
current_time > item['expires_at']`, keeping the order of the rest. -/
def evict_expired (now : Int) (entries : List (String × Entry)) :
    List (String × Entry) :=
  entries.filter (fun p => !(is_expired now p.2))

/-- `_evict_lru`: if `len(self._cache) >= self.max_size`, pop the first
(least-recently-used) item. -/
def evict_lru (max_size : Nat) (entries : List (String × Entry)) :
    List (String × Entry) :=
  if entries.length ≥ max_size then entries.tail else entries

/-- The record `put` appends, with `ttl` already resolved to an `Int`:
`ttl` and `expires_at` are set only when `ttl > 0`. -/
def new_item (now : Int) (ttl : Int) (value : PyVal) : Entry :=
  { value := value
    ttl := if ttl > 0 then Option.some ttl else Option.none
    expires_at := if ttl > 0 then Option.some (now + ttl) else Option.none
    created_at := now }

/-- `put`: resolve the TTL (default when `None`), sweep expired entries,
delete the old binding of `key` (or, for a new key, run LRU eviction),
then append the new item at the most-recent end.  Returns `True`. -/
def put (c : InMemoryCache) (now : Int) (key : String) (value : PyVal)
    (ttl : Option Int) : InMemoryCache × Bool :=
  let ttl := ttl.getD c.default_ttl
  let entries := evict_expired now c.cache
  let entries :=
    if entries.any (fun p => decide (p.1 = key)) then
      entries.filter (fun p => !(decide (p.1 = key)))
    else
      evict_lru c.max_size entries
  ({ c with cache := entries ++ [(key, new_item now ttl value)] }, true)

/-- First binding of `key` in the ordered mapping (keys are unique on
reachable states, so this is the dict lookup `self._cache[key]`). -/
def find_item (key : String) : List (String × Entry) → Option Entry
  | [] => Option.none
  | p :: rest => if p.1 = key then Option.some p.2 else find_item key rest

/-- `move_to_end(key)`: the binding of `key` goes to the most-recent end. -/
def move_to_end (key : String) (item : Entry) (entries : List (String × Entry)) :
    List (String × Entry) :=
  entries.filter (fun p => !(decide (p.1 = key))) ++ [(key, item)]

/-- `get`: `None` on a missing key; on an expired key delete it and return
`None`; otherwise bump recency and return the stored value. -/
def get (c : InMemoryCache) (now : Int) (key : String) :
    InMemoryCache × PyVal :=
  match find_item key c.cache with
  | Option.none => (c, PyVal.none)
  | Option.some item =>
    if is_expired now item then
      ({ c with cache := c.cache.filter (fun p => !(decide (p.1 = key))) },
       PyVal.none)
    else
      ({ c with cache := move_to_end key item c.cache }, item.value)

/-- `delete`: remove the key if present, reporting whether it was. -/
def delete (c : InMemoryCache) (key : String) : InMemoryCache × Bool :=
  if c.cache.any (fun p => decide (p.1 = key)) then
    ({ c with cache := c.cache.filter (fun p => !(decide (p.1 = key))) }, true)
  else
    (c, false)

/-- `clear`: drop every entry. -/
def clear (c : InMemoryCache) : InMemoryCache :=
  { c with cache := [] }

/-- `size`: sweep expired entries, then return the live count. -/
def size (c : InMemoryCache) (now : Int) : InMemoryCache × Nat :=
  let entries := evict_expired now c.cache
  ({ c with cache := entries }, entries.length)

end InMemoryCache

/-- The dictionary returned by `stats()`. -/
structure Stats where
  size : Nat
  max_size : Nat
  default_ttl : Int
deriving DecidableEq

/-- `stats`: same expiry sweep as `size`, plus the two configuration
values. -/
def InMemoryCache.stats (c : InMemoryCache) (now : Int) :
    InMemoryCache × Stats :=
  let entries := evict_expired now c.cache
  ({ c with cache := entries },
   { size := entries.length, max_size := c.max_size,
     default_ttl := c.default_ttl })

/-!
The HTTP binding layer.  A request body is modelled at the point the handler
inspects it: `is_json` is `request.is_json`; `value` and `ttl` are the two
fields of the parsed JSON object, `Option.none` when the field is absent and
`Option.some w` when present with JSON value `w` (`PyVal.none` for `null`).
A response is modelled by its status code plus the body fields the claims
inspect.
-/

/-- A PUT `/cache/{key}` request as the handler sees it. -/
structure PutRequest where
  is_json : Bool
  value : Option PyVal
  ttl : Option PyVal
deriving DecidableEq

/-- The response of the PUT handler: status code, the `ttl` field of the
201 body (`Option.none` on errors), and the `error` field (`Option.none`
on success). -/
structure HttpPutResult where
  status : Nat
  ttlField : Option PyVal
  error : Option String
deriving DecidableEq

/-- Python truthiness of the values a validated `ttl` variable can hold,
used by the handler's `ttl or cache.default_ttl`. -/
def pyTruthy : PyVal → Bool
  | PyVal.none => false
  | PyVal.int n => decide (n ≠ 0)
  | PyVal.str s => decide (s ≠ "")

/-- Python `a or b` specialised to the handler's `ttl or cache.default_ttl`. -/
def pyOr (a : PyVal) (b : PyVal) : PyVal :=
  if pyTruthy a then a else b

/-- The Python object passed as `ttl` to `cache.put` (after validation it is
`None` or a non-negative `int`; the string branch is unreachable then). -/
def pyToOptInt : PyVal → Option Int
  | PyVal.none => Option.none
  | PyVal.int n => Option.some n
  | PyVal.str _ => Option.none

/-- `put_cache_item`: reject a non-JSON body (400), a missing `value`
field (400), and a non-`None` `ttl` that is not a non-negative integer
(400); otherwise call `cache.put` and answer 201 with
`'ttl': ttl or cache.default_ttl`.  Note `data.get('ttl', None)` yields
Python `None` both when the field is absent and when it is JSON `null`. -/
def put_cache_item (c : InMemoryCache) (now : Int) (key : String)
    (req : PutRequest) : InMemoryCache × HttpPutResult :=
  if req.is_json = false then
    (c, { status := 400, ttlField := Option.none,
          error := Option.some "Content-Type must be application/json" })
  else
    match req.value with
    | Option.none =>
      (c, { status := 400, ttlField := Option.none,
            error := Option.some "Missing required field: value" })
    | Option.some v =>
      let ttl : PyVal := req.ttl.getD PyVal.none
      let ttlRejected : Bool :=
        match ttl with
        | PyVal.none => false
        | PyVal.int n => decide (n < 0)
        | PyVal.str _ => true
      if ttlRejected then
        (c, { status := 400, ttlField := Option.none,
              error := Option.some "TTL must be a non-negative integer" })
      else
        let res := c.put now key v (pyToOptInt ttl)
        if res.2 then
          (res.1, { status := 201,
                    ttlField := Option.some (pyOr ttl (PyVal.int c.default_ttl)),
                    error := Option.none })
        else
          (res.1, { status := 500, ttlField := Option.none,
                    error := Option.some "Failed to store value" })

/-- The response of the GET handler: status code, the `value` field of the
200 body, and the `error` field of the 404 body. -/
structure HttpGetResult where
  status : Nat
  value : Option PyVal
  error : Option String
deriving DecidableEq

/-- `get_cache_item`: call `cache.get`; a `None` result (miss, expired, or a
stored `None` value) answers 404 `Key not found or expired`, anything else
answers 200 with the value. -/
def get_cache_item (c : InMemoryCache) (now : Int) (key : String) :
    InMemoryCache × HttpGetResult :=
  let res := c.get now key
  if res.2 = PyVal.none then
    (res.1, { status := 404, value := Option.none,
              error := Option.some "Key not found or expired" })
  else
    (res.1, { status := 200, value := Option.some res.2,
              error := Option.none })

/-! ### Helper lemmas about the cache operations -/

namespace InMemoryCache

theorem put_cache_eq (c : InMemoryCache) (now : Int) (key : String)
    (v : PyVal) (ttl : Option Int) :
    (c.put now key v ttl).1.cache =
      (if (evict_expired now c.cache).any (fun p => decide (p.1 = key)) then
        (evict_expired now c.cache).filter (fun p => !(decide (p.1 = key)))
      else
        evict_lru c.max_size (evict_expired now c.cache))
      ++ [(key, new_item now (ttl.getD c.default_ttl) v)] := rfl

theorem ne_key_of_mem_filter {l : List (String × Entry)} {key : String}
    {p : String × Entry}
    (h : p ∈ l.filter (fun p => !(decide (p.1 = key)))) : p.1 ≠ key := by
  have := List.of_mem_filter h
  simpa using this

theorem ne_key_of_any_eq_false {l : List (String × Entry)} {key : String}
    (h : l.any (fun p => decide (p.1 = key)) = false) :
    ∀ p ∈ l, p.1 ≠ key := by
  intro p hp
  have := List.any_eq_false.mp h p hp
  simpa using this

theorem find_item_append_key {l : List (String × Entry)} {key : String}
    (it : Entry) (h : ∀ p ∈ l, p.1 ≠ key) :
    find_item key (l ++ [(key, it)]) = Option.some it := by
  induction l with
  | nil => simp [find_item]
  | cons p rest ih =>
    have hp : p.1 ≠ key := h p (List.mem_cons_self p rest)
    simp only [List.cons_append, find_item, if_neg hp]
    exact ih (fun q hq => h q (List.mem_cons_of_mem p hq))

theorem find_item_put (c : InMemoryCache) (now : Int) (key : String)
    (v : PyVal) (ttl : Option Int) :
    find_item key ((c.put now key v ttl).1.cache) =
      Option.some (new_item now (ttl.getD c.default_ttl) v) := by
  rw [put_cache_eq]
  apply find_item_append_key
  intro p hp
  by_cases hany :
      (evict_expired now c.cache).any (fun p => decide (p.1 = key)) = true
  · rw [if_pos hany] at hp
    exact ne_key_of_mem_filter hp
  · rw [if_neg hany] at hp
    have hmem : p ∈ evict_expired now c.cache := by
      unfold evict_lru at hp
      by_cases hlen :
          (evict_expired now c.cache).length ≥ c.max_size
      · rw [if_pos hlen] at hp
        exact List.mem_of_mem_tail hp
      · rwa [if_neg hlen] at hp
    exact ne_key_of_any_eq_false (Bool.eq_false_iff.mpr hany) p hmem

theorem is_expired_new_item_nonpos {t : Int} (now now' : Int) (v : PyVal)
    (h : t ≤ 0) : is_expired now' (new_item now t v) = false := by
  have : ¬ t > 0 := by omega
  simp [is_expired, new_item, if_neg this]

theorem is_expired_new_item_pos {t : Int} (now now' : Int) (v : PyVal)
    (h : 0 < t) :
    is_expired now' (new_item now t v) = decide (now' > now + t) := by
  simp [is_expired, new_item, if_pos h]

end InMemoryCache

/-! ### Claim theorems -/

open InMemoryCache

/-- Claim C1: a `put` whose TTL is explicitly 0 or negative stores the entry
with no expiration: at every later (indeed, every) time, `get` on that key
still returns the stored value. -/
theorem put_nonpositive_ttl_never_expires
    (c : InMemoryCache) (now now' : Int) (key : String) (v : PyVal) (t : Int)
    (h : t ≤ 0) :
    (((c.put now key v (Option.some t)).1).get now' key).2 = v := by
  have hf : find_item key ((c.put now key v (Option.some t)).1.cache) =
      Option.some (new_item now t v) := by
    simpa using find_item_put c now key v (Option.some t)
  have hexp : is_expired now' (new_item now t v) = false :=
    is_expired_new_item_nonpos now now' v h
  simp only [InMemoryCache.get, hf]
  rw [hexp]
  simp [new_item]

/-- Witness for C1: a concrete `put` with `ttl = 0` is still a hit after a
very long delay. -/
theorem put_nonpositive_ttl_never_expires_witness :
    ((((({ max_size := 2, default_ttl := 3600, cache := [] } :
        InMemoryCache)).put 0 "k" (PyVal.int 7) (Option.some 0)).1).get
        1000000000 "k").2 = PyVal.int 7 :=
  put_nonpositive_ttl_never_expires _ 0 1000000000 "k" (PyVal.int 7) 0
    (by decide)

/-- Claim C4: with `max_size = 2` and nothing expiring, the sequence
`put(a,1); put(b,2); get(a); put(c,3)` evicts exactly `b`: afterwards
`get(a) = 1`, `get(b)` misses, `get(c) = 3`, and no binding of `b`
remains. -/
theorem lru_eviction_scenario :
    (let c0 : InMemoryCache :=
      { max_size := 2, default_ttl := 3600, cache := [] }
     let c1 := (c0.put 0 "a" (PyVal.int 1) Option.none).1
     let c2 := (c1.put 1 "b" (PyVal.int 2) Option.none).1
     let c3 := (c2.get 2 "a").1
     let c4 := (c3.put 3 "c" (PyVal.int 3) Option.none).1
     ((c4.get 4 "a").2 = PyVal.int 1) ∧ ((c4.get 4 "b").2 = PyVal.none) ∧
       ((c4.get 4 "c").2 = PyVal.int 3) ∧
       (c4.cache.all (fun p => !(decide (p.1 = "b"))) = true)) := by
  decide

theorem length_filter_not_lt_of_any {α : Type} (p : α → Bool) (l : List α)
    (h : l.any p = true) :
    (l.filter (fun x => !(p x))).length < l.length := by
  induction l with
  | nil => simp at h
  | cons a t ih =>
    rcases Bool.eq_false_or_eq_true (p a) with hpa | hpa
    · have hfil : (t.filter (fun x => !(p x))).length ≤ t.length :=
        List.length_filter_le _ _
      have hcons :
          (a :: t).filter (fun x => !(p x)) = t.filter (fun x => !(p x)) := by
        simp [List.filter_cons, hpa]
      rw [hcons]
      simp only [List.length_cons]
      omega
    · have hta : t.any p = true := by simpa [hpa] using h
      have := ih hta
      have hcons :
          (a :: t).filter (fun x => !(p x)) =
            a :: t.filter (fun x => !(p x)) := by
        simp [List.filter_cons, hpa]
      rw [hcons]
      simp only [List.length_cons]
      omega

theorem put_length_le (c : InMemoryCache) (now : Int) (key : String)
    (v : PyVal) (ttl : Option Int)
    (hpos : 0 < c.max_size) (hle : c.cache.length ≤ c.max_size) :
    (c.put now key v ttl).1.cache.length ≤ c.max_size := by
  have hsle : (evict_expired now c.cache).length ≤ c.cache.length :=
    List.length_filter_le _ _
  rw [put_cache_eq]
  by_cases hany :
      (evict_expired now c.cache).any (fun p => decide (p.1 = key)) = true
  · rw [if_pos hany]
    have hlt := length_filter_not_lt_of_any _ _ hany
    simp only [List.length_append, List.length_singleton]
    omega
  · rw [if_neg hany]
    unfold evict_lru
    by_cases hlen : (evict_expired now c.cache).length ≥ c.max_size
    · rw [if_pos hlen]
      simp only [List.length_append, List.length_tail, List.length_singleton]
      omega
    · rw [if_neg hlen]
      simp only [List.length_append, List.length_singleton]
      omega

theorem find_item_some_any {l : List (String × Entry)} {key : String}
    {it : Entry} (h : find_item key l = Option.some it) :
    l.any (fun p => decide (p.1 = key)) = true := by
  induction l with
  | nil => simp [find_item] at h
  | cons p rest ih =>
    by_cases hp : p.1 = key
    · simp [List.any_cons, hp]
    · simp only [find_item, if_neg hp] at h
      simp [List.any_cons, ih h]

theorem get_length_le (c : InMemoryCache) (now : Int) (key : String) :
    (c.get now key).1.cache.length ≤ c.cache.length := by
  cases hf : find_item key c.cache with
  | none =>
    have hc : (c.get now key).1 = c := by simp [InMemoryCache.get, hf]
    rw [hc]
  | some item =>
    by_cases hexp : is_expired now item = true
    · have hc : (c.get now key).1.cache =
          c.cache.filter (fun p => !(decide (p.1 = key))) := by
        simp only [InMemoryCache.get, hf]
        rw [hexp]
        simp
      rw [hc]
      exact List.length_filter_le _ _
    · have hexp' : is_expired now item = false := by
        simpa using hexp
      have hc : (c.get now key).1.cache = move_to_end key item c.cache := by
        simp only [InMemoryCache.get, hf]
        rw [hexp']
        simp
      rw [hc]
      have hlt : (c.cache.filter (fun p => !(decide (p.1 = key)))).length <
          c.cache.length :=
        length_filter_not_lt_of_any
          (fun p => decide (p.1 = key)) c.cache (find_item_some_any hf)
      simp only [move_to_end, List.length_append, List.length_singleton]
      omega

theorem delete_length_le (c : InMemoryCache) (key : String) :
    (c.delete key).1.cache.length ≤ c.cache.length := by
  unfold InMemoryCache.delete
  by_cases h : c.cache.any (fun p => decide (p.1 = key)) = true
  · rw [if_pos h]
    exact List.length_filter_le _ _
  · rw [if_neg h]

/-- The cache states the program can actually build: the constructed empty
cache followed by any sequence of the public operations. -/
inductive CacheReachable (m : Nat) (d : Int) : InMemoryCache → Prop where
  | init :
      CacheReachable m d { max_size := m, default_ttl := d, cache := [] }
  | putStep (c : InMemoryCache) (now : Int) (key : String) (v : PyVal)
      (ttl : Option Int) : CacheReachable m d c →
      CacheReachable m d (c.put now key v ttl).1
  | getStep (c : InMemoryCache) (now : Int) (key : String) :
      CacheReachable m d c → CacheReachable m d (c.get now key).1
  | deleteStep (c : InMemoryCache) (key : String) :
      CacheReachable m d c → CacheReachable m d (c.delete key).1
  | clearStep (c : InMemoryCache) :
      CacheReachable m d c → CacheReachable m d c.clear
  | sizeStep (c : InMemoryCache) (now : Int) :
      CacheReachable m d c → CacheReachable m d (c.size now).1
  | statsStep (c : InMemoryCache) (now : Int) :
      CacheReachable m d c → CacheReachable m d (c.stats now).1

theorem reachable_max_size {m : Nat} {d : Int} {c : InMemoryCache}
    (h : CacheReachable m d c) : c.max_size = m := by
  induction h with
  | init => rfl
  | putStep c now key v ttl hc ih => exact ih
  | getStep c now key hc ih =>
    cases hf : find_item key c.cache with
    | none =>
      have hh : (c.get now key).1 = c := by simp [InMemoryCache.get, hf]
      rw [hh]
      exact ih
    | some item =>
      by_cases hexp : is_expired now item = true
      · have hh : (c.get now key).1.max_size = c.max_size := by
          simp only [InMemoryCache.get, hf]
          rw [hexp]
          simp
        rw [hh]
        exact ih
      · have hexp' : is_expired now item = false := by simpa using hexp
        have hh : (c.get now key).1.max_size = c.max_size := by
          simp only [InMemoryCache.get, hf]
          rw [hexp']
          simp
        rw [hh]
        exact ih
  | deleteStep c key hc ih =>
    unfold InMemoryCache.delete
    by_cases h : c.cache.any (fun p => decide (p.1 = key)) = true
    · rw [if_pos h]
      exact ih
    · rw [if_neg h]
      exact ih
  | clearStep c hc ih => exact ih
  | sizeStep c now hc ih => exact ih
  | statsStep c now hc ih => exact ih

theorem reachable_length_le {m : Nat} {d : Int} {c : InMemoryCache}
    (hm : 0 < m) (h : CacheReachable m d c) : c.cache.length ≤ m := by
  induction h with
  | init => simp
  | putStep c now key v ttl hc ih =>
    have hms : c.max_size = m := reachable_max_size hc
    have hres := put_length_le c now key v ttl (by rw [hms]; exact hm)
      (by rw [hms]; exact ih)
    rw [hms] at hres
    exact hres
  | getStep c now key hc ih => exact le_trans (get_length_le c now key) ih
  | deleteStep c key hc ih => exact le_trans (delete_length_le c key) ih
  | clearStep c hc ih => simp [InMemoryCache.clear]
  | sizeStep c now hc ih =>
    exact le_trans (List.length_filter_le _ _) ih
  | statsStep c now hc ih =>
    exact le_trans (List.length_filter_le _ _) ih

/-- Claim C2: on every reachable state of a cache constructed with a
positive `max_size`, a `put` leaves at most `max_size` entries; and a `put`
of a genuinely new key into an at-or-over-capacity (post-sweep) store
removes exactly the first (least-recently-used) entry, freeing exactly one
slot, before appending the new one. -/
theorem put_capacity_invariant (m : Nat) (d : Int) (c : InMemoryCache)
    (now : Int) (key : String) (v : PyVal) (ttl : Option Int)
    (hm : 0 < m) (hreach : CacheReachable m d c) :
    (c.put now key v ttl).1.cache.length ≤ c.max_size ∧
    ((evict_expired now c.cache).any (fun p => decide (p.1 = key)) = false →
      c.max_size ≤ (evict_expired now c.cache).length →
      (c.put now key v ttl).1.cache =
        (evict_expired now c.cache).tail ++
          [(key, new_item now (ttl.getD c.default_ttl) v)]) := by
  have hms : c.max_size = m := reachable_max_size hreach
  refine ⟨put_length_le c now key v ttl (by rw [hms]; exact hm)
    (by rw [hms]; exact reachable_length_le hm hreach), ?_⟩
  intro hany hcap
  rw [put_cache_eq, if_neg (by simp [hany]), evict_lru, if_pos hcap]

/-- Witness for C2: a reachable one-slot cache holding a live `a` takes
`put` of the new key `b` by evicting exactly `a`. -/
theorem put_capacity_invariant_witness :
    (({ max_size := 1, default_ttl := 10, cache := [("a", InMemoryCache.new_item 0 0 (PyVal.int 1))] } : InMemoryCache).put 5 "b" (PyVal.int 2) Option.none).1.cache.length ≤ 1 ∧
    (({ max_size := 1, default_ttl := 10, cache := [("a", InMemoryCache.new_item 0 0 (PyVal.int 1))] } : InMemoryCache).put 5 "b" (PyVal.int 2) Option.none).1.cache =
      (evict_expired 5 [("a", InMemoryCache.new_item 0 0 (PyVal.int 1))]).tail ++
        [("b", InMemoryCache.new_item 5 10 (PyVal.int 2))] := by
  have hreach : CacheReachable 1 10
      ({ max_size := 1, default_ttl := 10, cache := [("a", InMemoryCache.new_item 0 0 (PyVal.int 1))] } : InMemoryCache) :=
    CacheReachable.putStep _ 0 "a" (PyVal.int 1) (Option.some 0)
      CacheReachable.init
  have h := put_capacity_invariant 1 10
    { max_size := 1, default_ttl := 10, cache := [("a", InMemoryCache.new_item 0 0 (PyVal.int 1))] }
    5 "b" (PyVal.int 2) Option.none (by decide) hreach
  exact ⟨h.1, h.2 (by decide) (by decide)⟩

theorem find_item_eq_none {l : List (String × Entry)} {key : String}
    (h : ∀ p ∈ l, p.1 ≠ key) : find_item key l = Option.none := by
  induction l with
  | nil => rfl
  | cons p rest ih =>
    have hp := h p (List.mem_cons_self p rest)
    simp only [find_item, if_neg hp]
    exact ih (fun q hq => h q (List.mem_cons_of_mem p hq))

/-- Claim C3: `get` returns the stored value exactly on a present, unexpired
key; on a present but expired key it returns the miss result and removes the
entry (so it is no longer found); on an absent key it changes nothing. -/
theorem get_characterisation (c : InMemoryCache) (now : Int) (key : String) :
    (find_item key c.cache = Option.none → c.get now key = (c, PyVal.none)) ∧
    (∀ item, find_item key c.cache = Option.some item →
      is_expired now item = true →
      (c.get now key).2 = PyVal.none ∧
      (c.get now key).1.cache =
        c.cache.filter (fun p => !(decide (p.1 = key))) ∧
      find_item key (c.get now key).1.cache = Option.none) ∧
    (∀ item, find_item key c.cache = Option.some item →
      is_expired now item = false →
      (c.get now key).2 = item.value ∧
      (c.get now key).1.cache = move_to_end key item c.cache) := by
  refine ⟨?_, ?_, ?_⟩
  · intro h
    simp [InMemoryCache.get, h]
  · intro item hf hexp
    have hg : c.get now key =
        ({ c with cache := c.cache.filter (fun p => !(decide (p.1 = key))) },
         PyVal.none) := by
      simp only [InMemoryCache.get, hf]
      rw [hexp]
      simp
    refine ⟨by rw [hg], by rw [hg], ?_⟩
    rw [hg]
    exact find_item_eq_none (fun p hp => ne_key_of_mem_filter hp)
  · intro item hf hexp
    have hg : c.get now key =
        ({ c with cache := move_to_end key item c.cache }, item.value) := by
      simp only [InMemoryCache.get, hf]
      rw [hexp]
      simp
    exact ⟨by rw [hg], by rw [hg]⟩

/-- Witness for C3: the three cases of `get` at concrete caches — a miss on
an empty cache, an expired hit that is purged, and a live hit. -/
theorem get_characterisation_witness :
    (({ max_size := 2, default_ttl := 7, cache := [] } : InMemoryCache).get 0 "k" = (({ max_size := 2, default_ttl := 7, cache := [] } : InMemoryCache), PyVal.none)) ∧
    ((({ max_size := 2, default_ttl := 7, cache := [("k", InMemoryCache.new_item 0 1 (PyVal.int 5))] } : InMemoryCache).get 10 "k").2 = PyVal.none ∧
      find_item "k" ((({ max_size := 2, default_ttl := 7, cache := [("k", InMemoryCache.new_item 0 1 (PyVal.int 5))] } : InMemoryCache).get 10 "k").1.cache) = Option.none) ∧
    ((({ max_size := 2, default_ttl := 7, cache := [("k", InMemoryCache.new_item 0 1 (PyVal.int 5))] } : InMemoryCache).get 1 "k").2 = PyVal.int 5) := by
  refine ⟨?_, ⟨?_, ?_⟩, ?_⟩
  · exact (get_characterisation { max_size := 2, default_ttl := 7, cache := [] } 0 "k").1 (by decide)
  · exact ((get_characterisation { max_size := 2, default_ttl := 7, cache := [("k", InMemoryCache.new_item 0 1 (PyVal.int 5))] } 10 "k").2.1 (InMemoryCache.new_item 0 1 (PyVal.int 5)) (by decide) (by decide)).1
  · exact ((get_characterisation { max_size := 2, default_ttl := 7, cache := [("k", InMemoryCache.new_item 0 1 (PyVal.int 5))] } 10 "k").2.1 (InMemoryCache.new_item 0 1 (PyVal.int 5)) (by decide) (by decide)).2.2
  · exact ((get_characterisation { max_size := 2, default_ttl := 7, cache := [("k", InMemoryCache.new_item 0 1 (PyVal.int 5))] } 1 "k").2.2 (InMemoryCache.new_item 0 1 (PyVal.int 5)) (by decide) (by decide)).1

/-- Claim C6: at full capacity with only live entries, a `put` on an
already-present key rewrites exactly that key's binding (no LRU eviction):
the new state is the old one minus the old binding plus the new binding at
the recent end, and every other key stays present. -/
theorem put_overwrite_preserves_others (c : InMemoryCache) (now : Int)
    (key : String) (v : PyVal) (ttl : Option Int)
    (hfull : c.cache.length = c.max_size)
    (hlive : ∀ p ∈ c.cache, is_expired now p.2 = false)
    (hpresent : c.cache.any (fun p => decide (p.1 = key)) = true) :
    (c.put now key v ttl).1.cache =
      c.cache.filter (fun p => !(decide (p.1 = key))) ++
        [(key, new_item now (ttl.getD c.default_ttl) v)] ∧
    (∀ k, k ≠ key → c.cache.any (fun p => decide (p.1 = k)) = true →
      (c.put now key v ttl).1.cache.any
        (fun p => decide (p.1 = k)) = true) := by
  have hsweep : evict_expired now c.cache = c.cache := by
    unfold evict_expired
    apply List.filter_eq_self.mpr
    intro p hp
    simp [hlive p hp]
  have heq : (c.put now key v ttl).1.cache =
      c.cache.filter (fun p => !(decide (p.1 = key))) ++
        [(key, new_item now (ttl.getD c.default_ttl) v)] := by
    rw [put_cache_eq, hsweep, if_pos hpresent]
  refine ⟨heq, ?_⟩
  intro k hk hkany
  rw [heq]
  rcases List.any_eq_true.mp hkany with ⟨p, hpmem, hpk⟩
  have hpk' : p.1 = k := of_decide_eq_true hpk
  apply List.any_eq_true.mpr
  refine ⟨p, List.mem_append_left _ (List.mem_filter.mpr ⟨hpmem, ?_⟩), hpk⟩
  have : p.1 ≠ key := by rw [hpk']; exact hk
  simp [this]

/-- Witness for C6: a full two-slot cache `{a, b}` takes an overwrite of `a`
without evicting `b`. -/
theorem put_overwrite_preserves_others_witness :
    (({ max_size := 2, default_ttl := 10,
        cache := [("a", InMemoryCache.new_item 0 0 (PyVal.int 1)),
                  ("b", InMemoryCache.new_item 0 0 (PyVal.int 2))] } :
        InMemoryCache).put 5 "a" (PyVal.int 9) Option.none).1.cache =
      [("a", InMemoryCache.new_item 0 0 (PyVal.int 1)),
       ("b", InMemoryCache.new_item 0 0 (PyVal.int 2))].filter
        (fun p => !(decide (p.1 = "a"))) ++
        [("a", InMemoryCache.new_item 5 10 (PyVal.int 9))] ∧
    (({ max_size := 2, default_ttl := 10,
        cache := [("a", InMemoryCache.new_item 0 0 (PyVal.int 1)),
                  ("b", InMemoryCache.new_item 0 0 (PyVal.int 2))] } :
        InMemoryCache).put 5 "a" (PyVal.int 9) Option.none).1.cache.any
        (fun p => decide (p.1 = "b")) = true := by
  have h := put_overwrite_preserves_others
    { max_size := 2, default_ttl := 10,
      cache := [("a", InMemoryCache.new_item 0 0 (PyVal.int 1)),
                ("b", InMemoryCache.new_item 0 0 (PyVal.int 2))] }
    5 "a" (PyVal.int 9) Option.none rfl (by decide) (by decide)
  exact ⟨h.1, h.2 "b" (by decide) (by decide)⟩

theorem getLast_append_single {α : Type} (l : List α) (a : α) :
    (l ++ [a]).getLast? = Option.some a := by
  simp [List.getLast?_concat]

/-- Claim C7: a `put` always leaves its key at the last (most-recent)
position of the recency order, and a successful `get` moves the accessed
binding to the last position. -/
theorem recency_last_position (c : InMemoryCache) (now : Int) (key : String)
    (v : PyVal) (ttl : Option Int) :
    ((c.put now key v ttl).1.cache.getLast?).map Prod.fst =
      Option.some key ∧
    (∀ item, find_item key c.cache = Option.some item →
      is_expired now item = false →
      (c.get now key).1.cache.getLast? = Option.some (key, item)) := by
  constructor
  · rw [put_cache_eq, getLast_append_single]
    rfl
  · intro item hf hexp
    have hg : (c.get now key).1.cache = move_to_end key item c.cache := by
      simp only [InMemoryCache.get, hf]
      rw [hexp]
      simp
    rw [hg]
    exact getLast_append_single _ _

/-- Witness for C7: after a concrete `put` the key sits last; a concrete
successful `get` moves its binding to the last position. -/
theorem recency_last_position_witness :
    (((({ max_size := 3, default_ttl := 9, cache := [("a", InMemoryCache.new_item 0 0 (PyVal.int 1))] } : InMemoryCache).put 1 "b" (PyVal.int 2) Option.none).1.cache.getLast?).map Prod.fst = Option.some "b") ∧
    ((({ max_size := 3, default_ttl := 9, cache := [("a", InMemoryCache.new_item 0 0 (PyVal.int 1)), ("b", InMemoryCache.new_item 0 0 (PyVal.int 2))] } : InMemoryCache).get 1 "a").1.cache.getLast? = Option.some ("a", InMemoryCache.new_item 0 0 (PyVal.int 1))) := by
  constructor
  · exact (recency_last_position { max_size := 3, default_ttl := 9, cache := [("a", InMemoryCache.new_item 0 0 (PyVal.int 1))] } 1 "b" (PyVal.int 2) Option.none).1
  · exact (recency_last_position { max_size := 3, default_ttl := 9, cache := [("a", InMemoryCache.new_item 0 0 (PyVal.int 1)), ("b", InMemoryCache.new_item 0 0 (PyVal.int 2))] } 1 "a" (PyVal.int 0) Option.none).2 (InMemoryCache.new_item 0 0 (PyVal.int 1)) (by decide) (by decide)

/-- Claim C8: `stats` and `size` evaluated at the same time agree on the
entry count, leave the same state behind, and after either one no expired
entry remains in (or is counted by) the store. -/
theorem stats_size_agree (c : InMemoryCache) (now : Int) :
    (c.stats now).2.size = (c.size now).2 ∧
    (c.stats now).1 = (c.size now).1 ∧
    (∀ p ∈ (c.size now).1.cache, is_expired now p.2 = false) := by
  refine ⟨rfl, rfl, ?_⟩
  intro p hp
  have hp' : p ∈ c.cache.filter (fun q => !(is_expired now q.2)) := hp
  have := List.of_mem_filter hp'
  simpa using this

/-- Witness for C8: on a cache holding one live and one expired entry,
`stats` and `size` agree and the surviving entry is unexpired. -/
theorem stats_size_agree_witness :
    ((({ max_size := 5, default_ttl := 10, cache := [("a", InMemoryCache.new_item 0 1 (PyVal.int 1)), ("b", InMemoryCache.new_item 0 0 (PyVal.int 2))] } : InMemoryCache).stats 10).2.size = (({ max_size := 5, default_ttl := 10, cache := [("a", InMemoryCache.new_item 0 1 (PyVal.int 1)), ("b", InMemoryCache.new_item 0 0 (PyVal.int 2))] } : InMemoryCache).size 10).2) ∧
    is_expired 10 (InMemoryCache.new_item 0 0 (PyVal.int 2)) = false := by
  have h := stats_size_agree { max_size := 5, default_ttl := 10, cache := [("a", InMemoryCache.new_item 0 1 (PyVal.int 1)), ("b", InMemoryCache.new_item 0 0 (PyVal.int 2))] } 10
  exact ⟨h.1, h.2.2 ("b", InMemoryCache.new_item 0 0 (PyVal.int 2)) (by decide)⟩

/-- Counterexample to C5 as stated: a PUT with explicit `ttl = 0` is
accepted (201) and stored with no expiration (effective TTL 0), but the
response's `ttl` field reports `default_ttl = 3600`, because the handler
computes it as `ttl or cache.default_ttl` and `0` is falsy. -/
theorem put_handler_ttl_zero_reports_default :
    ((put_cache_item { max_size := 1000, default_ttl := 3600, cache := [] } 0 "k" { is_json := true, value := Option.some (PyVal.str "v"), ttl := Option.some (PyVal.int 0) }).2.status = 201) ∧
    ((put_cache_item { max_size := 1000, default_ttl := 3600, cache := [] } 0 "k" { is_json := true, value := Option.some (PyVal.str "v"), ttl := Option.some (PyVal.int 0) }).2.ttlField = Option.some (PyVal.int 3600)) ∧
    (Option.some (PyVal.int 3600) ≠ Option.some (PyVal.int 0)) ∧
    (find_item "k" ((put_cache_item { max_size := 1000, default_ttl := 3600, cache := [] } 0 "k" { is_json := true, value := Option.some (PyVal.str "v"), ttl := Option.some (PyVal.int 0) }).1.cache) = Option.some { value := PyVal.str "v", ttl := Option.none, expires_at := Option.none, created_at := 0 }) := by
  decide

/-- Claim C5 (amended): for every accepted PUT request the response is 201
and its `ttl` field equals the request's `ttl` when that is a positive
integer; when the `ttl` is absent, `null`, or `0`, the response reports
`default_ttl` instead (even though an explicit `ttl = 0` is stored with no
expiration). -/
theorem put_handler_response_ttl (c : InMemoryCache) (now : Int)
    (key : String) (req : PutRequest) (u : PyVal)
    (hjson : req.is_json = true) (hval : req.value = Option.some u) :
    (∀ n : Int, req.ttl = Option.some (PyVal.int n) → 0 < n →
      (put_cache_item c now key req).2.status = 201 ∧
      (put_cache_item c now key req).2.ttlField =
        Option.some (PyVal.int n)) ∧
    ((req.ttl = Option.none ∨ req.ttl = Option.some PyVal.none ∨
        req.ttl = Option.some (PyVal.int 0)) →
      (put_cache_item c now key req).2.status = 201 ∧
      (put_cache_item c now key req).2.ttlField =
        Option.some (PyVal.int c.default_ttl)) := by
  constructor
  · intro n httl hn
    have h0 : ¬ (n < 0) := by omega
    have hne : n ≠ 0 := by omega
    simp [put_cache_item, hjson, hval, httl, h0, pyOr, pyTruthy, hne,
      InMemoryCache.put]
  · intro hcase
    rcases hcase with h | h | h <;>
      simp [put_cache_item, hjson, hval, h, pyOr, pyTruthy,
        InMemoryCache.put]

/-- Witness for the amended C5: a concrete accepted PUT with `ttl = 5`
answers 201 with `ttl` field 5. -/
theorem put_handler_response_ttl_witness :
    ((put_cache_item { max_size := 2, default_ttl := 3600, cache := [] } 0 "k" { is_json := true, value := Option.some (PyVal.int 1), ttl := Option.some (PyVal.int 5) }).2.status = 201) ∧
    ((put_cache_item { max_size := 2, default_ttl := 3600, cache := [] } 0 "k" { is_json := true, value := Option.some (PyVal.int 1), ttl := Option.some (PyVal.int 5) }).2.ttlField = Option.some (PyVal.int 5)) :=
  (put_handler_response_ttl { max_size := 2, default_ttl := 3600, cache := [] } 0 "k" { is_json := true, value := Option.some (PyVal.int 1), ttl := Option.some (PyVal.int 5) } (PyVal.int 1) rfl rfl).1 5 rfl (by decide)

/-- Counterexample to C9 as stated: a PUT whose `ttl` field is present with
value `null` — not a non-negative integer — is not rejected: the handler
answers 201 and the store gains the entry (with the default TTL). -/
theorem put_handler_null_ttl_accepted :
    ((put_cache_item { max_size := 1000, default_ttl := 3600, cache := [] } 0 "k" { is_json := true, value := Option.some (PyVal.int 5), ttl := Option.some PyVal.none }).2.status = 201) ∧
    ((put_cache_item { max_size := 1000, default_ttl := 3600, cache := [] } 0 "k" { is_json := true, value := Option.some (PyVal.int 5), ttl := Option.some PyVal.none }).1.cache ≠ []) ∧
    (find_item "k" ((put_cache_item { max_size := 1000, default_ttl := 3600, cache := [] } 0 "k" { is_json := true, value := Option.some (PyVal.int 5), ttl := Option.some PyVal.none }).1.cache) = Option.some (InMemoryCache.new_item 0 3600 (PyVal.int 5))) := by
  decide

/-- Claim C9 (amended): a PUT whose body is not JSON, or lacks `value`, or
whose `ttl` field is present with a non-`null` value that is not a
non-negative integer, is answered 400 with the store untouched; a `null`
`ttl` is treated as if the field were absent. -/
theorem put_handler_validation (c : InMemoryCache) (now : Int) (key : String)
    (req : PutRequest) :
    (req.is_json = false →
      (put_cache_item c now key req).2.status = 400 ∧
      (put_cache_item c now key req).1 = c) ∧
    (req.is_json = true → req.value = Option.none →
      (put_cache_item c now key req).2.status = 400 ∧
      (put_cache_item c now key req).1 = c) ∧
    (∀ u w, req.is_json = true → req.value = Option.some u →
      req.ttl = Option.some w →
      ((∃ n : Int, w = PyVal.int n ∧ n < 0) ∨ (∃ s, w = PyVal.str s)) →
      (put_cache_item c now key req).2.status = 400 ∧
      (put_cache_item c now key req).1 = c) := by
  refine ⟨?_, ?_, ?_⟩
  · intro h
    simp [put_cache_item, h]
  · intro h1 h2
    simp [put_cache_item, h1, h2]
  · intro u w h1 h2 h3 hbad
    rcases hbad with ⟨n, rfl, hn⟩ | ⟨s, rfl⟩
    · simp [put_cache_item, h1, h2, h3, hn]
    · simp [put_cache_item, h1, h2, h3]

/-- Witness for the amended C9: a concrete PUT with `ttl = -1` is answered
400 and leaves the store unchanged. -/
theorem put_handler_validation_witness :
    ((put_cache_item { max_size := 2, default_ttl := 3600, cache := [] } 0 "k" { is_json := true, value := Option.some (PyVal.int 1), ttl := Option.some (PyVal.int (-1)) }).2.status = 400) ∧
    ((put_cache_item { max_size := 2, default_ttl := 3600, cache := [] } 0 "k" { is_json := true, value := Option.some (PyVal.int 1), ttl := Option.some (PyVal.int (-1)) }).1 = { max_size := 2, default_ttl := 3600, cache := [] }) :=
  (put_handler_validation { max_size := 2, default_ttl := 3600, cache := [] } 0 "k" { is_json := true, value := Option.some (PyVal.int 1), ttl := Option.some (PyVal.int (-1)) }).2.2 (PyVal.int 1) (PyVal.int (-1)) rfl rfl rfl (Or.inl ⟨-1, rfl, by decide⟩)

/-- Claim C10: a stored `None` value on a live key is indistinguishable
from a miss: `get` yields the miss sentinel `None` and the GET endpoint
answers 404 `Key not found or expired`, although the key is present and
unexpired. -/
theorem none_value_indistinguishable_from_miss (c : InMemoryCache)
    (now now' : Int) (key : String) (t : Int)
    (ht : 0 < t) (hnow : now' ≤ now + t) :
    (((c.put now key PyVal.none (Option.some t)).1).get now' key).2 =
      PyVal.none ∧
    (get_cache_item (c.put now key PyVal.none (Option.some t)).1 now'
      key).2.status = 404 ∧
    (get_cache_item (c.put now key PyVal.none (Option.some t)).1 now'
      key).2.error = Option.some "Key not found or expired" ∧
    find_item key (c.put now key PyVal.none (Option.some t)).1.cache =
      Option.some (new_item now t PyVal.none) ∧
    is_expired now' (new_item now t PyVal.none) = false := by
  have hf : find_item key
      ((c.put now key PyVal.none (Option.some t)).1.cache) =
      Option.some (new_item now t PyVal.none) := by
    simpa using find_item_put c now key PyVal.none (Option.some t)
  have hexp : is_expired now' (new_item now t PyVal.none) = false := by
    rw [is_expired_new_item_pos now now' PyVal.none ht]
    simp only [decide_eq_false_iff_not]
    omega
  have hv : (((c.put now key PyVal.none (Option.some t)).1).get now'
      key).2 = PyVal.none := by
    simp only [InMemoryCache.get, hf]
    rw [hexp]
    simp [new_item]
  refine ⟨hv, ?_, ?_, hf, hexp⟩
  · simp [get_cache_item, hv]
  · simp [get_cache_item, hv]

/-- Witness for C10: a concrete `put` of `None` with `ttl = 10` makes the
key look missing (404) five seconds later. -/
theorem none_value_indistinguishable_from_miss_witness :
    ((((({ max_size := 2, default_ttl := 3600, cache := [] } : InMemoryCache).put 0 "k" PyVal.none (Option.some 10)).1).get 5 "k").2 = PyVal.none) ∧
    ((get_cache_item (({ max_size := 2, default_ttl := 3600, cache := [] } : InMemoryCache).put 0 "k" PyVal.none (Option.some 10)).1 5 "k").2.status = 404) := by
  have h := none_value_indistinguishable_from_miss
    { max_size := 2, default_ttl := 3600, cache := [] } 0 5 "k" 10
    (by decide) (by decide)
  exact ⟨h.1, h.2.1⟩
